import Mathlib

/-!
Verification of the sandboxed execution engine of the code-mode-mcp
repository.  The authoritative source is the Sandbox class in
src/src/agent.ts (constructor, initialize, executeCode, runWithTimeout,
cleanup) together with the generated IPC bridge callMCPTool emitted by
the generator script.  Worker-process behaviour is modelled as a state
machine driven by a trace of runtime events: data arriving on the stdout
and stderr streams, the timeout timer firing, the process exit event,
the spawn-level error event, and IPC messages from the child.  The
JavaScript promise resolves at most once; this is modelled by a
resolve-once update on an optional result field.
-/

/-- Result record returned by executeCode and runWithTimeout: mirrors
the object literal with success, optional output and optional error. -/
structure ExecutionResult where
  success : Bool
  output : Option String
  error : Option String
deriving DecidableEq, Repr

/-- JavaScript string-or idiom a or-else d used in the exit handler:
an empty string is falsy, so the default is used exactly when the
buffer is empty. -/
def jsStringOr (s d : String) : String :=
  if s = "" then d else s

/-- Node delivers the exit code as a number or null (killed by signal).
Template interpolation of that value renders null as the word null. -/
def jsShowExitCode : Option Int → String
  | none => "null"
  | some n => toString n

/-- Tool-call arguments travel through the bridge untouched; they are
modelled as an opaque serialized payload. -/
abbrev ToolArgs := String

/-- One element of a tool response content array: a text item carrying
its string, or any other item carrying its serialized JSON form. -/
inductive ContentItem where
  | text (s : String)
  | other (json : String)
deriving DecidableEq, Repr

/-- Value the broker resolves a tool call with.  The mcp form models an
object having a content field (the standard CallToolResult with its
isError flag); the raw form models any other value, carried as its
JSON serialization, which the child-side bridge returns verbatim. -/
inductive ToolData where
  | mcp (isError : Bool) (content : List ContentItem)
  | raw (json : String)
deriving DecidableEq, Repr

/-- Live connection to one tool provider.  callTool either resolves
with data or throws with a message; the observed behaviour for a given
tool name and arguments is modelled as a function. -/
structure MCPClient where
  callTool : String → ToolArgs → Except String ToolData

/-- The mcpClients map of the Sandbox, read via get: a partial map from
provider name to connection. -/
abbrev MCPClients := String → Option MCPClient

/-- Empty connection map, used for concrete evaluations. -/
def noClients : MCPClients := fun _ => none

/-- Incoming IPC message as seen by the parent message handler.  The
handler first checks that the message is non-null and carries the
type tag callMCPTool; null models a null message and other models any
envelope whose type tag differs or is missing.  Fields of a well-typed
envelope are modelled as present. -/
inductive IPCIncoming where
  | null
  | other (ty : String)
  | callMCPTool (id serverName toolName : String) (args : ToolArgs)
deriving DecidableEq, Repr

/-- Outgoing IPC response sent back to the child, mirroring the
IPCResponse union type of the source. -/
inductive IPCResponse where
  | result (id : String) (data : ToolData)
  | error (id : String) (error : String)
deriving DecidableEq, Repr

/-- Parent-side message handler of runWithTimeout.  Null or wrongly
typed messages are ignored (no response).  For a callMCPTool request
the handler looks the provider up in the connection map; a missing
provider yields an error response embedding the provider name; a
connected provider has its callTool awaited, a resolution is sent back
as a result response and a throw as an error response carrying the
thrown message. -/
def handleMessage (clients : MCPClients) (msg : IPCIncoming) : Option IPCResponse :=
  match msg with
  | .null => none
  | .other _ => none
  | .callMCPTool id serverName toolName args =>
    match clients serverName with
    | none => some (.error id ("MCP server not connected: " ++ serverName))
    | some client =>
      match client.callTool toolName args with
      | .ok data => some (.result id data)
      | .error e => some (.error id e)

/-- Runtime event observed by runWithTimeout during one worker run. -/
inductive RunEvent where
  | stdoutData (s : String)
  | stderrData (s : String)
  | timerFire
  | exited (code : Option Int)
  | spawnError (msg : String)
  | ipcMessage (msg : IPCIncoming)
deriving DecidableEq, Repr

/-- Events whose handler calls resolve: the timeout callback, the exit
handler and the error handler.  Stream data and IPC messages never
resolve the promise. -/
def RunEvent.resolving : RunEvent → Bool
  | .timerFire => true
  | .exited _ => true
  | .spawnError _ => true
  | _ => false

/-- State of one runWithTimeout invocation: the stdout and stderr
buffers, whether the timeout timer is still pending, whether
proc.kill was called, the responses sent to the child, and the
resolved value of the promise if resolve has been called. -/
structure RunState where
  stdout : String
  stderr : String
  timerActive : Bool
  killed : Bool
  sent : List IPCResponse
  result : Option ExecutionResult
deriving DecidableEq, Repr

/-- State at the moment fork returns: empty buffers, timer pending,
process alive, nothing sent, promise pending. -/
def initRunState : RunState :=
  { stdout := "", stderr := "", timerActive := true, killed := false,
    sent := [], result := none }

/-- Resolve of the promise: the first call stores the value, every
later call is a no-op. -/
def resolveOnce (st : RunState) (r : ExecutionResult) : RunState :=
  if st.result.isSome then st else { st with result := some r }

/-- Exit handler value: code 0 resolves success with the stdout buffer
or the fixed placeholder when it is empty; any other code resolves
failure with the stderr buffer or an exit-code message when it is
empty. -/
def exitOutcome (code : Option Int) (stdout stderr : String) : ExecutionResult :=
  if code = some 0 then
    { success := true,
      output := some (jsStringOr stdout "Code executed successfully (no output)"),
      error := none }
  else
    { success := false, output := none,
      error := some (jsStringOr stderr ("Exit code: " ++ jsShowExitCode code)) }

/-- One step of the runner state machine: the handler the source
registers for the given event.  Stream data appends to a buffer.  The
timer callback runs only while the timer is pending; it kills the
process and resolves the fixed timeout failure (the message is the
string literal of the source).  The exit and error handlers first
clear the timer and then resolve.  An IPC message is answered through
handleMessage, the response (if any) being sent to the child. -/
def stepEvent (clients : MCPClients) (st : RunState) (e : RunEvent) : RunState :=
  match e with
  | .stdoutData s => { st with stdout := st.stdout ++ s }
  | .stderrData s => { st with stderr := st.stderr ++ s }
  | .timerFire =>
    if st.timerActive then
      resolveOnce { st with killed := true, timerActive := false }
        { success := false, output := none, error := some "Execution timeout (10s)" }
    else st
  | .exited code =>
    resolveOnce { st with timerActive := false } (exitOutcome code st.stdout st.stderr)
  | .spawnError msg =>
    resolveOnce { st with timerActive := false }
      { success := false, output := none, error := some msg }
  | .ipcMessage m =>
    { st with sent := st.sent ++ (handleMessage clients m).toList }

/-- Final runner state after processing a trace of events in arrival
order. -/
def runTrace (clients : MCPClients) (events : List RunEvent) : RunState :=
  events.foldl (stepEvent clients) initRunState

/-- Value of the promise returned by runWithTimeout on a given trace;
none models a still-pending promise.  The timeout argument sets the
real-time alarm and hence when the timerFire event occurs in the
trace; it does not otherwise enter the handlers (the source hardcodes
its timeout message). -/
def runWithTimeout (clients : MCPClients) (timeout : Nat)
    (events : List RunEvent) : Option ExecutionResult :=
  (runTrace clients events).result

/-- Concatenation of all stdout data in a trace, in order. -/
def outText : List RunEvent → String
  | [] => ""
  | .stdoutData s :: rest => s ++ outText rest
  | _ :: rest => outText rest

/-- Concatenation of all stderr data in a trace, in order. -/
def errText : List RunEvent → String
  | [] => ""
  | .stderrData s :: rest => s ++ errText rest
  | _ :: rest => errText rest

/-!
Workspace model.  The Sandbox owns one per-instance temp directory
created by initialize; executeCode writes a uniquely named exec file
into it, runs the worker and unlinks the file in a finally block;
cleanup removes the whole directory recursively.
-/

/-- Kind of entry lstat can find at the servers path inside the
workspace: a symbolic link, a directory, or any other entry. -/
inductive EntryKind where
  | symlink
  | dir
  | file
deriving DecidableEq, Repr

/-- Outcome of the symlink attempt, as supplied by the platform: it
succeeds, or fails with one of the error codes the source
distinguishes, or fails with any other error carrying a message. -/
inductive SymlinkResult where
  | ok
  | errEEXIST
  | errEPERM
  | errEACCES
  | errENOSYS
  | errOther (msg : String)
deriving DecidableEq, Repr

/-- Typed outcome of the stub-tree preparation inside initialize. -/
inductive PrepOutcome where
  | skippedNoTarget
  | skippedExisting
  | linked
  | ignoredExisting
  | copied
  | loggedFailure (msg : String)
deriving DecidableEq, Repr

/-- Stub-tree preparation of initialize: when stat on the canonical
generated-api servers tree fails the whole block is skipped; when
lstat finds a symbolic link or a directory at the destination the
creation is skipped; otherwise a symlink is attempted, an EEXIST
failure is ignored (concurrent creation), a permission-class failure
(EPERM, EACCES, ENOSYS) falls back to a recursive copy, and any other
failure is logged without blocking initialization. -/
def prepareServers (targetExists : Bool) (existing : Option EntryKind)
    (link : SymlinkResult) : PrepOutcome :=
  if !targetExists then .skippedNoTarget
  else
    let needLink :=
      match existing with
      | some .symlink => false
      | some .dir => false
      | some .file => true
      | none => true
    if !needLink then .skippedExisting
    else
      match link with
      | .ok => .linked
      | .errEEXIST => .ignoredExisting
      | .errEPERM => .copied
      | .errEACCES => .copied
      | .errENOSYS => .copied
      | .errOther msg => .loggedFailure msg

/-- Entry present at the servers path after preparation: a fresh link
after a successful symlink, a real directory after a copy, and the
prior entry in every other case. -/
def entryAfter (existing : Option EntryKind) : PrepOutcome → Option EntryKind
  | .linked => some .symlink
  | .copied => some .dir
  | _ => existing

/-- On-disk state owned by one Sandbox instance: its temp directory
path and whether that directory exists, the entry at the servers path
inside it, whether the runner bootstrap file has been written, and
the exec files currently present. -/
structure SandboxFS where
  tempDir : String
  tempDirExists : Bool
  serversEntry : Option EntryKind
  runnerWritten : Bool
  execFiles : List String
deriving DecidableEq, Repr

/-- Model of Sandbox.initialize: creates the temp directory, runs the
stub-tree preparation (whose failures never propagate), and writes
the runner bootstrap.  Returns the new state and the typed
preparation outcome. -/
def sandboxInit (sb : SandboxFS) (targetExists : Bool)
    (existing : Option EntryKind) (link : SymlinkResult) : SandboxFS × PrepOutcome :=
  let outcome := prepareServers targetExists existing link
  ({ sb with tempDirExists := true,
             serversEntry := entryAfter existing outcome,
             runnerWritten := true }, outcome)

/-- Model of Sandbox.cleanup: recursive forced removal of the temp
directory, taking every entry inside it along. -/
def cleanup (sb : SandboxFS) : SandboxFS :=
  { sb with tempDirExists := false, serversEntry := none,
            runnerWritten := false, execFiles := [] }

/-- Per-call exec file name built from the timestamp and the random
suffix, exactly as in executeCode. -/
def execFileName (ts rand : String) : String :=
  "exec-" ++ ts ++ "-" ++ rand ++ ".ts"

/-- Message of the error fs.writeFile rejects with when the containing
directory does not exist (Node ENOENT; the path quoting of the native
message is elided). -/
def enoentOpenMsg (p : String) : String :=
  "ENOENT: no such file or directory, open " ++ p

/-- Timeout passed by executeCode to runWithTimeout: the literal
10000 of the source. -/
def executeTimeoutMs : Nat := 10000

/-- Everything observable after one executeCode call resolves: its
result, the sandbox filesystem state, whether a worker was spawned
(instrumentation marking that runWithTimeout was reached), and the
final runner state when one ran. -/
structure ExecOutcome where
  result : ExecutionResult
  fs : SandboxFS
  spawned : Bool
  run : Option RunState
deriving DecidableEq, Repr

/-- Model of Sandbox.executeCode.  The exec file name combines the
timestamp and random suffix.  When the temp directory exists the
write lands, the file exists until the finally block unlinks it after
the worker resolves, and the result is the resolved value of
runWithTimeout on the worker trace; a trace on which the promise
never resolves leaves the call pending (none).  When the temp
directory does not exist the write rejects with ENOENT, the catch
shapes the failure result from the error message, no worker is
spawned, and the finally unlink of the never-written file is a
swallowed no-op. -/
def executeCode (sb : SandboxFS) (code ts rand : String) (clients : MCPClients)
    (events : List RunEvent) : Option ExecOutcome :=
  let fname := execFileName ts rand
  if sb.tempDirExists then
    let fin := runTrace clients events
    match fin.result with
    | none => none
    | some r =>
      some { result := r,
             fs := { sb with execFiles := (sb.execFiles.insert fname).erase fname },
             spawned := true,
             run := some fin }
  else
    some { result := { success := false, output := none,
                       error := some (enoentOpenMsg (sb.tempDir ++ "/" ++ fname)) },
           fs := { sb with execFiles := sb.execFiles.erase fname },
           spawned := false,
           run := none }

/-!
Child-side bridge.  The generator emits client.ts whose callMCPTool
sends a callMCPTool envelope over the IPC channel and installs a
message handler that ignores responses with a foreign id, then either
resolves with the extracted text of a standard response, rejects on
an error-flagged standard response, resolves with the serialization
of a non-standard response, or rejects with the message of an error
envelope.
-/

/-- JSON string escaping of one character as performed by
JSON.stringify for the characters exercised here; other characters
pass through unchanged. -/
def escapeJsonChar (c : Char) : String :=
  if c = '\"' then "\\\""
  else if c = '\\' then "\\\\"
  else if c = '\n' then "\\n"
  else if c = '\r' then "\\r"
  else if c = '\t' then "\\t"
  else String.singleton c

/-- JSON string escaping of a whole string. -/
def escapeJson (s : String) : String :=
  String.join (s.data.map escapeJsonChar)

/-- Array join with a separator, as in JavaScript. -/
def joinSep (sep : String) : List String → String
  | [] => ""
  | [x] => x
  | x :: xs => x ++ sep ++ joinSep sep xs

/-- JSON serialization of one content item: a text item serializes to
an object with its type and text fields; any other item is carried as
its own serialization. -/
def stringifyItem : ContentItem → String
  | .text s => "\x7b\"type\":\"text\",\"text\":\"" ++ escapeJson s ++ "\"\x7d"
  | .other json => json

/-- JSON serialization of a content array. -/
def stringifyContent (content : List ContentItem) : String :=
  "[" ++ joinSep "," (content.map stringifyItem) ++ "]"

/-- Text extracted from a content item by the bridge filter. -/
def contentText : ContentItem → Option String
  | .text s => some s
  | .other _ => none

/-- Child-side response handler of callMCPTool for an expected request
id: responses with a foreign id are ignored (none, the promise stays
pending).  A result envelope carrying a standard content-bearing
response rejects with the serialized content when the error flag is
set and otherwise resolves with the newline-join of its text items; a
non-standard response resolves with its serialization; an error
envelope rejects with its message. -/
def childHandleResponse (id : String) (resp : IPCResponse) :
    Option (Except String String) :=
  match resp with
  | .result rid data =>
    if rid = id then
      some (match data with
        | .mcp isError content =>
          if isError then
            Except.error ("Tool call failed: " ++ stringifyContent content)
          else
            Except.ok (joinSep "\n" (content.filterMap contentText))
        | .raw json => Except.ok json)
    else none
  | .error rid e =>
    if rid = id then some (Except.error e) else none

/-- Round trip of one tool call: the request envelope is handled by
the parent message handler and its response by the child bridge.  A
none models an await that never resolves. -/
def toolCallRoundTrip (clients : MCPClients) (id sn tn : String)
    (args : ToolArgs) : Option (Except String String) :=
  match handleMessage clients (.callMCPTool id sn tn args) with
  | some resp => childHandleResponse id resp
  | none => none

/-- Text console.error prints for a thrown Error: the stack begins
with the word Error, a colon and the message; the stack frames after
the first line are elided as they carry no claim-relevant content. -/
def consoleErrorDisplay (msg : String) : String :=
  "Error: " ++ msg ++ "\n"

/-- End-to-end result of user code that awaits one tool call and logs
the value: a resolved await prints the value and the worker exits 0;
a rejected await escapes the dynamic import, the runner bootstrap
prints the error to stderr and exits 1; an await that never resolves
leaves the worker alive until the timeout kill.  The exit paths feed
the exit handler of runWithTimeout. -/
def singleToolCallResult (clients : MCPClients) (id sn tn : String)
    (args : ToolArgs) : ExecutionResult :=
  match toolCallRoundTrip clients id sn tn args with
  | some (.ok v) => exitOutcome (some 0) (v ++ "\n") ""
  | some (.error e) => exitOutcome (some 1) "" (consoleErrorDisplay e)
  | none => { success := false, output := none,
              error := some "Execution timeout (10s)" }

/-- Containment of one string in another, stated on the underlying
character lists. -/
def containsStr (hay needle : String) : Prop :=
  ∃ s t, hay.data = s ++ needle.data ++ t

/-!
Helper lemmas.  The promise-resolution discipline: resolve is
idempotent after the first call, the timer can only be pending while
the promise is unresolved, and stream buffers accumulate in arrival
order.
-/

/-- Resolve never changes an already resolved promise. -/
theorem resolveOnce_result_of_some (st : RunState) (v r : ExecutionResult)
    (h : st.result = some r) : (resolveOnce st v).result = some r := by
  simp [resolveOnce, h]

/-- Resolve leaves the promise resolved. -/
theorem resolveOnce_result_isSome (st : RunState) (v : ExecutionResult) :
    (resolveOnce st v).result.isSome = true := by
  unfold resolveOnce
  split
  · assumption
  · simp

/-- Resolve does not touch the kill flag. -/
theorem resolveOnce_killed (st : RunState) (v : ExecutionResult) :
    (resolveOnce st v).killed = st.killed := by
  unfold resolveOnce
  split <;> rfl

/-- Resolve does not touch the timer flag. -/
theorem resolveOnce_timerActive (st : RunState) (v : ExecutionResult) :
    (resolveOnce st v).timerActive = st.timerActive := by
  unfold resolveOnce
  split <;> rfl

/-- No event changes the value of an already resolved promise. -/
theorem stepEvent_result_frozen (c : MCPClients) (st : RunState) (e : RunEvent)
    (r : ExecutionResult) (h : st.result = some r) :
    (stepEvent c st e).result = some r := by
  cases e with
  | stdoutData s => simpa [stepEvent] using h
  | stderrData s => simpa [stepEvent] using h
  | timerFire =>
    by_cases ht : st.timerActive
    · simp only [stepEvent, ht, if_true]
      exact resolveOnce_result_of_some _ _ _ h
    · simpa [stepEvent, ht] using h
  | exited code =>
    simp only [stepEvent]
    exact resolveOnce_result_of_some _ _ _ h
  | spawnError m =>
    simp only [stepEvent]
    exact resolveOnce_result_of_some _ _ _ h
  | ipcMessage m => simpa [stepEvent] using h

/-- No tail of events changes the value of an already resolved
promise. -/
theorem runFoldl_result_frozen (c : MCPClients) (evs : List RunEvent) :
    ∀ (st : RunState) (r : ExecutionResult), st.result = some r →
      (List.foldl (stepEvent c) st evs).result = some r := by
  induction evs with
  | nil => intro st r h; simpa using h
  | cons e rest ih =>
    intro st r h
    simpa [List.foldl_cons] using ih _ r (stepEvent_result_frozen c st e r h)

/-- A resolved promise stays resolved. -/
theorem runFoldl_isSome_frozen (c : MCPClients) (evs : List RunEvent)
    (st : RunState) (h : st.result.isSome = true) :
    (List.foldl (stepEvent c) st evs).result.isSome = true := by
  obtain ⟨r, hr⟩ := Option.isSome_iff_exists.mp h
  rw [runFoldl_result_frozen c evs st r hr]
  rfl

/-- The kill flag never reverts. -/
theorem stepEvent_killed_frozen (c : MCPClients) (st : RunState) (e : RunEvent)
    (h : st.killed = true) : (stepEvent c st e).killed = true := by
  cases e with
  | stdoutData s => simpa [stepEvent] using h
  | stderrData s => simpa [stepEvent] using h
  | timerFire =>
    by_cases ht : st.timerActive
    · simp only [stepEvent, ht, if_true]
      rw [resolveOnce_killed]
    · simpa [stepEvent, ht] using h
  | exited code =>
    simp only [stepEvent]
    rw [resolveOnce_killed]
    exact h
  | spawnError m =>
    simp only [stepEvent]
    rw [resolveOnce_killed]
    exact h
  | ipcMessage m => simpa [stepEvent] using h

/-- The kill flag never reverts over a whole tail. -/
theorem runFoldl_killed_frozen (c : MCPClients) (evs : List RunEvent) :
    ∀ st : RunState, st.killed = true →
      (List.foldl (stepEvent c) st evs).killed = true := by
  induction evs with
  | nil => intro st h; simpa using h
  | cons e rest ih =>
    intro st h
    simpa [List.foldl_cons] using ih _ (stepEvent_killed_frozen c st e h)

/-- A cleared timer stays cleared. -/
theorem stepEvent_timer_cleared (c : MCPClients) (st : RunState) (e : RunEvent)
    (h : st.timerActive = false) : (stepEvent c st e).timerActive = false := by
  cases e with
  | stdoutData s => simpa [stepEvent] using h
  | stderrData s => simpa [stepEvent] using h
  | timerFire => simp [stepEvent, h]
  | exited code =>
    simp only [stepEvent]
    rw [resolveOnce_timerActive]
  | spawnError m =>
    simp only [stepEvent]
    rw [resolveOnce_timerActive]
  | ipcMessage m => simpa [stepEvent] using h

/-- A cleared timer stays cleared over a whole tail. -/
theorem runFoldl_timer_cleared (c : MCPClients) (evs : List RunEvent) :
    ∀ st : RunState, st.timerActive = false →
      (List.foldl (stepEvent c) st evs).timerActive = false := by
  induction evs with
  | nil => intro st h; simpa using h
  | cons e rest ih =>
    intro st h
    simpa [List.foldl_cons] using ih _ (stepEvent_timer_cleared c st e h)

/-- Steps preserve the invariant that a cleared timer implies a
resolved promise: the timer is cleared only by the exit and error
handlers, which resolve, and by the one-shot firing itself. -/
theorem stepEvent_inactive_resolved (c : MCPClients) (st : RunState) (e : RunEvent)
    (h : st.timerActive = false → st.result.isSome = true) :
    (stepEvent c st e).timerActive = false → (stepEvent c st e).result.isSome = true := by
  cases e with
  | stdoutData s => simpa [stepEvent] using h
  | stderrData s => simpa [stepEvent] using h
  | timerFire =>
    by_cases ht : st.timerActive
    · simp only [stepEvent, ht, if_true]
      intro _
      exact resolveOnce_result_isSome _ _
    · simpa [stepEvent, ht] using h
  | exited code =>
    simp only [stepEvent]
    intro _
    exact resolveOnce_result_isSome _ _
  | spawnError m =>
    simp only [stepEvent]
    intro _
    exact resolveOnce_result_isSome _ _
  | ipcMessage m => simpa [stepEvent] using h

/-- The cleared-timer-implies-resolved invariant holds after any
event sequence. -/
theorem runFoldl_inactive_resolved (c : MCPClients) (evs : List RunEvent) :
    ∀ st : RunState, (st.timerActive = false → st.result.isSome = true) →
      ((List.foldl (stepEvent c) st evs).timerActive = false →
       (List.foldl (stepEvent c) st evs).result.isSome = true) := by
  induction evs with
  | nil => intro st h; simpa using h
  | cons e rest ih =>
    intro st h
    simpa [List.foldl_cons] using ih _ (stepEvent_inactive_resolved c st e h)

/-- Handling a resolving event leaves the promise resolved, provided
the cleared-timer invariant held before. -/
theorem stepEvent_resolving_isSome (c : MCPClients) (st : RunState) (e : RunEvent)
    (he : e.resolving = true)
    (hinv : st.timerActive = false → st.result.isSome = true) :
    (stepEvent c st e).result.isSome = true := by
  cases e with
  | stdoutData s => simp [RunEvent.resolving] at he
  | stderrData s => simp [RunEvent.resolving] at he
  | ipcMessage m => simp [RunEvent.resolving] at he
  | timerFire =>
    by_cases ht : st.timerActive
    · simp only [stepEvent, ht, if_true]
      exact resolveOnce_result_isSome _ _
    · simp only [stepEvent, ht, if_false]
      exact hinv (by simpa using ht)
  | exited code =>
    simp only [stepEvent]
    exact resolveOnce_result_isSome _ _
  | spawnError m =>
    simp only [stepEvent]
    exact resolveOnce_result_isSome _ _

/-- A trace containing any resolving event ends with the promise
resolved. -/
theorem runTrace_isSome_of_resolving (c : MCPClients) (events : List RunEvent)
    (e : RunEvent) (he : e ∈ events) (hr : e.resolving = true) :
    (runTrace c events).result.isSome = true := by
  obtain ⟨l1, l2, rfl⟩ := List.append_of_mem he
  unfold runTrace
  rw [List.foldl_append, List.foldl_cons]
  have hinv := runFoldl_inactive_resolved c l1 initRunState
    (by intro h; simp [initRunState] at h)
  exact runFoldl_isSome_frozen c l2 _ (stepEvent_resolving_isSome c _ e hr hinv)

/-- Processing a sequence of non-resolving events leaves the promise
pending, the timer live and the process unkilled, and accumulates
exactly the stream data of the sequence onto the buffers. -/
theorem runFoldl_nonresolving (c : MCPClients) (pre : List RunEvent) :
    ∀ st : RunState, (∀ e ∈ pre, e.resolving = false) →
      st.result = none → st.timerActive = true → st.killed = false →
      ((List.foldl (stepEvent c) st pre).result = none ∧
       (List.foldl (stepEvent c) st pre).timerActive = true ∧
       (List.foldl (stepEvent c) st pre).killed = false ∧
       (List.foldl (stepEvent c) st pre).stdout = st.stdout ++ outText pre ∧
       (List.foldl (stepEvent c) st pre).stderr = st.stderr ++ errText pre) := by
  induction pre with
  | nil =>
    intro st _ h1 h2 h3
    refine ⟨h1, h2, h3, ?_, ?_⟩ <;> simp [outText, errText]
  | cons e rest ih =>
    intro st hall h1 h2 h3
    have hres : e.resolving = false := hall e (by simp)
    have hrest : ∀ x ∈ rest, x.resolving = false := fun x hx => hall x (by simp [hx])
    cases e with
    | stdoutData s =>
      have h := ih { st with stdout := st.stdout ++ s } hrest h1 h2 h3
      simpa [stepEvent, outText, errText, String.append_assoc] using h
    | stderrData s =>
      have h := ih { st with stderr := st.stderr ++ s } hrest h1 h2 h3
      simpa [stepEvent, outText, errText, String.append_assoc] using h
    | ipcMessage m =>
      have h := ih { st with sent := st.sent ++ (handleMessage c m).toList } hrest h1 h2 h3
      simpa [stepEvent, outText, errText] using h
    | timerFire => simp [RunEvent.resolving] at hres
    | exited code => simp [RunEvent.resolving] at hres
    | spawnError m => simp [RunEvent.resolving] at hres

/-- Well-formedness of a result: a success carries an output and a
failure carries an error. -/
def goodShape (r : ExecutionResult) : Prop :=
  (r.success = true → r.output.isSome = true) ∧
  (r.success = false → r.error.isSome = true)

/-- Both branches of the exit handler produce a well-formed result. -/
theorem exitOutcome_goodShape (code : Option Int) (out err : String) :
    goodShape (exitOutcome code out err) := by
  unfold exitOutcome goodShape
  split <;> simp

/-- Resolve with a well-formed value keeps every resolved value
well-formed. -/
theorem resolveOnce_goodShape (st : RunState) (v r : ExecutionResult)
    (hst : ∀ x, st.result = some x → goodShape x) (hv : goodShape v)
    (h : (resolveOnce st v).result = some r) : goodShape r := by
  unfold resolveOnce at h
  split at h
  · exact hst r h
  · simp at h
    exact h ▸ hv

/-- Every handler resolves with a well-formed value. -/
theorem stepEvent_goodShape (c : MCPClients) (st : RunState) (e : RunEvent)
    (r : ExecutionResult) (hst : ∀ x, st.result = some x → goodShape x)
    (h : (stepEvent c st e).result = some r) : goodShape r := by
  cases e with
  | stdoutData s => exact hst r (by simpa [stepEvent] using h)
  | stderrData s => exact hst r (by simpa [stepEvent] using h)
  | ipcMessage m => exact hst r (by simpa [stepEvent] using h)
  | timerFire =>
    by_cases ht : st.timerActive
    · rw [stepEvent] at h
      rw [if_pos ht] at h
      refine resolveOnce_goodShape _ _ r ?_ ?_ h
      · exact fun x hx => hst x hx
      · constructor <;> simp
    · rw [stepEvent] at h
      rw [if_neg ht] at h
      exact hst r h
  | exited code =>
    rw [stepEvent] at h
    refine resolveOnce_goodShape _ _ r ?_ ?_ h
    · exact fun x hx => hst x hx
    · exact exitOutcome_goodShape code st.stdout st.stderr
  | spawnError m =>
    rw [stepEvent] at h
    refine resolveOnce_goodShape _ _ r ?_ ?_ h
    · exact fun x hx => hst x hx
    · constructor <;> simp

/-- Every value the promise can resolve to on any trace is
well-formed. -/
theorem runFoldl_goodShape (c : MCPClients) (evs : List RunEvent) :
    ∀ st : RunState, (∀ x, st.result = some x → goodShape x) →
      ∀ r, (List.foldl (stepEvent c) st evs).result = some r → goodShape r := by
  induction evs with
  | nil => intro st hst r h; exact hst r (by simpa using h)
  | cons e rest ih =>
    intro st hst r h
    exact ih _ (fun x hx => stepEvent_goodShape c st e x hst hx)
      r (by simpa [List.foldl_cons] using h)

/-- A string built around a middle part contains that part. -/
theorem containsStr_here (a n b : String) : containsStr (a ++ n ++ b) n :=
  ⟨a.data, b.data, by simp [String.data_append]⟩

/-- Containment survives prepending. -/
theorem containsStr_appendL (a : String) {b n : String}
    (h : containsStr b n) : containsStr (a ++ b) n := by
  obtain ⟨s, t, hh⟩ := h
  exact ⟨a.data ++ s, t, by simp [String.data_append, hh]⟩

/-- Containment survives appending. -/
theorem containsStr_appendR (b : String) {a n : String}
    (h : containsStr a n) : containsStr (a ++ b) n := by
  obtain ⟨s, t, hh⟩ := h
  exact ⟨s, t ++ b.data, by simp [String.data_append, hh]⟩

/-- Containment is transitive. -/
theorem containsStr_trans {a b n : String}
    (h1 : containsStr a b) (h2 : containsStr b n) : containsStr a n := by
  obtain ⟨s1, t1, hh1⟩ := h1
  obtain ⟨s2, t2, hh2⟩ := h2
  exact ⟨s1 ++ s2, t2 ++ t1, by rw [hh1, hh2]; simp⟩

/-- A join contains each of its elements. -/
theorem containsStr_joinSep (sep : String) :
    ∀ (l : List String) (x : String), x ∈ l → containsStr (joinSep sep l) x := by
  intro l
  induction l with
  | nil => intro x hx; simp at hx
  | cons a rest ih =>
    intro x hx
    cases rest with
    | nil =>
      simp at hx
      subst hx
      exact ⟨[], [], by simp [joinSep]⟩
    | cons b t =>
      have hj : joinSep sep (a :: b :: t) = a ++ sep ++ joinSep sep (b :: t) := rfl
      rcases List.mem_cons.mp hx with h | h
      · subst h
        rw [hj]
        exact ⟨[], (sep ++ joinSep sep (b :: t)).data,
          by simp [String.data_append]⟩
      · rw [hj]
        have hcat : a ++ sep ++ joinSep sep (b :: t) = (a ++ sep) ++ joinSep sep (b :: t) := rfl
        rw [hcat]
        exact containsStr_appendL (a ++ sep) (ih x h)

/-- The serialization of a text item whose text needs no JSON escaping
contains that text. -/
theorem containsStr_stringifyItem (m : String) (h : escapeJson m = m) :
    containsStr (stringifyItem (ContentItem.text m)) m := by
  simp only [stringifyItem]
  rw [h]
  exact containsStr_here _ _ _

/-- A string beginning with the error display marker is nonempty. -/
theorem errorPrefix_ne_empty (s t : String) : ("Error: " ++ s ++ t) ≠ "" := by
  intro h
  have hl := congrArg String.length h
  rw [String.length_append, String.length_append] at hl
  have h7 : "Error: ".length = 7 := rfl
  rw [h7] at hl
  simp at hl

/-- Exit while the promise is pending resolves it with the exit
handler value over the current buffers. -/
theorem stepEvent_exited_of_pending (c : MCPClients) (st : RunState)
    (code : Option Int) (h : st.result = none) :
    (stepEvent c st (RunEvent.exited code)).result =
      some (exitOutcome code st.stdout st.stderr) := by
  simp [stepEvent, resolveOnce, h]

/-- Timer firing while pending and live kills the process and resolves
the fixed timeout failure. -/
theorem stepEvent_timerFire_of_pending (c : MCPClients) (st : RunState)
    (h : st.result = none) (ht : st.timerActive = true) :
    stepEvent c st RunEvent.timerFire =
      { st with killed := true, timerActive := false,
                result := some { success := false, output := none,
                                 error := some "Execution timeout (10s)" } } := by
  simp [stepEvent, resolveOnce, ht, h]

/-- C1: when the worker exits before the timeout fires (no resolving
event precedes the exit event), the runner result is determined by the
exit code alone: code 0 succeeds with the captured stdout or the fixed
placeholder when stdout is empty, any other code fails with the
captured stderr or an exit-code message when stderr is empty. -/
theorem c1_exit_code_determines_result (clients : MCPClients) (timeout : Nat)
    (pre post : List RunEvent) (code : Option Int)
    (hpre : ∀ e ∈ pre, e.resolving = false) :
    runWithTimeout clients timeout (pre ++ RunEvent.exited code :: post) =
      some (if code = some 0
        then { success := true,
               output := some (jsStringOr (outText pre) "Code executed successfully (no output)"),
               error := none }
        else { success := false, output := none,
               error := some (jsStringOr (errText pre)
                 ("Exit code: " ++ jsShowExitCode code)) }) := by
  obtain ⟨h1, h2, h3, h4, h5⟩ :=
    runFoldl_nonresolving clients pre initRunState hpre rfl rfl rfl
  unfold runWithTimeout runTrace
  rw [List.foldl_append, List.foldl_cons]
  rw [runFoldl_result_frozen clients post _ _
    (stepEvent_exited_of_pending clients _ code h1)]
  rw [h4, h5]
  simp [initRunState, exitOutcome]

/-- Closed instance of the exit-code claim: a worker printing hi and
exiting 0 yields success with exactly that output. -/
theorem c1_exit_code_determines_result_witness :
    runWithTimeout noClients 10000
        ([RunEvent.stdoutData "hi\n"] ++ RunEvent.exited (some 0) :: []) =
      some { success := true, output := some "hi\n", error := none } := by
  have h := c1_exit_code_determines_result noClients 10000
    [RunEvent.stdoutData "hi\n"] [] (some 0) (by decide)
  rw [h]
  decide

/-- C2: when the timer fires before any exit or spawn error, the
worker is killed and executeCode resolves with the timeout failure;
the message renders the timeout executeCode actually passes, namely
10000 milliseconds shown as seconds. -/
theorem c2_timeout_resolution (sb : SandboxFS) (code ts rand : String)
    (clients : MCPClients) (pre post : List RunEvent)
    (htd : sb.tempDirExists = true) (hpre : ∀ e ∈ pre, e.resolving = false) :
    (executeCode sb code ts rand clients
        (pre ++ RunEvent.timerFire :: post)).map ExecOutcome.result =
      some { success := false, output := none,
             error := some ("Execution timeout (" ++
               toString (executeTimeoutMs / 1000) ++ "s)") }
    ∧ (executeCode sb code ts rand clients
        (pre ++ RunEvent.timerFire :: post)).map
          (fun o => o.run.map RunState.killed) = some (some true) := by
  have hmsg : "Execution timeout (" ++ toString (executeTimeoutMs / 1000) ++ "s)"
      = "Execution timeout (10s)" := by decide
  obtain ⟨h1, h2, h3, h4, h5⟩ :=
    runFoldl_nonresolving clients pre initRunState hpre rfl rfl rfl
  have hstep := stepEvent_timerFire_of_pending clients _ h1 h2
  have hres : (runTrace clients (pre ++ RunEvent.timerFire :: post)).result =
      some { success := false, output := none,
             error := some "Execution timeout (10s)" } := by
    unfold runTrace
    rw [List.foldl_append, List.foldl_cons, hstep]
    exact runFoldl_result_frozen clients post _ _ rfl
  have hkill : (runTrace clients (pre ++ RunEvent.timerFire :: post)).killed = true := by
    unfold runTrace
    rw [List.foldl_append, List.foldl_cons, hstep]
    exact runFoldl_killed_frozen clients post _ rfl
  constructor
  · simp [executeCode, htd, hres, hmsg]
  · simp [executeCode, htd, hres, hkill]

/-- Concrete sandbox state after initialize, used by closed
instances. -/
def sandboxReady : SandboxFS :=
  { tempDir := ".sandbox-temp/42-1700000000000-abcdef", tempDirExists := true,
    serversEntry := some EntryKind.symlink, runnerWritten := true, execFiles := [] }

/-- Closed instance of the timeout claim: an infinite loop whose only
event is the timer firing yields the timeout failure with the worker
killed. -/
theorem c2_timeout_resolution_witness :
    (executeCode sandboxReady "while(true);" "1" "a" noClients
        ([] ++ RunEvent.timerFire :: [])).map ExecOutcome.result =
      some { success := false, output := none,
             error := some ("Execution timeout (" ++
               toString (executeTimeoutMs / 1000) ++ "s)") }
    ∧ (executeCode sandboxReady "while(true);" "1" "a" noClients
        ([] ++ RunEvent.timerFire :: [])).map
          (fun o => o.run.map RunState.killed) = some (some true) :=
  c2_timeout_resolution sandboxReady "while(true);" "1" "a" noClients [] []
    rfl (by simp)

/-- C7: exactly one of timeout firing, worker exit and spawn error
produces the final resolution.  Whichever resolving event comes first
fixes the promise value; every later event, in particular a late exit
after a timeout kill, leaves the result unchanged; and the timer is
cleared by the exit handler. -/
theorem c7_first_event_wins (clients : MCPClients) (timeout : Nat)
    (pre post : List RunEvent) (e : RunEvent) (code : Option Int)
    (hpre : ∀ x ∈ pre, x.resolving = false) (he : e.resolving = true) :
    runWithTimeout clients timeout (pre ++ e :: post) =
      runWithTimeout clients timeout (pre ++ [e])
    ∧ (runWithTimeout clients timeout (pre ++ e :: post)).isSome = true
    ∧ (runTrace clients (pre ++ RunEvent.exited code :: post)).timerActive = false := by
  obtain ⟨h1, h2, h3, h4, h5⟩ :=
    runFoldl_nonresolving clients pre initRunState hpre rfl rfl rfl
  have hinv : (List.foldl (stepEvent clients) initRunState pre).timerActive = false →
      (List.foldl (stepEvent clients) initRunState pre).result.isSome = true := by
    intro hf
    rw [h2] at hf
    simp at hf
  have hsome := stepEvent_resolving_isSome clients _ e he hinv
  obtain ⟨r, hr⟩ := Option.isSome_iff_exists.mp hsome
  refine ⟨?_, ?_, ?_⟩
  · unfold runWithTimeout runTrace
    rw [List.foldl_append, List.foldl_cons, List.foldl_append]
    rw [runFoldl_result_frozen clients post _ r hr]
    simp [hr]
  · unfold runWithTimeout runTrace
    rw [List.foldl_append, List.foldl_cons]
    exact runFoldl_isSome_frozen clients post _ hsome
  · unfold runTrace
    rw [List.foldl_append, List.foldl_cons]
    apply runFoldl_timer_cleared
    simp only [stepEvent]
    rw [resolveOnce_timerActive]

/-- Closed instance of the single-resolution claim: a spawn error
followed by a late exit resolves to the spawn-error result, the late
exit changing nothing, and an exit clears the timer. -/
theorem c7_first_event_wins_witness :
    runWithTimeout noClients 10000
        ([] ++ RunEvent.spawnError "boom" :: [RunEvent.exited (some 0)]) =
      runWithTimeout noClients 10000 ([] ++ [RunEvent.spawnError "boom"])
    ∧ (runWithTimeout noClients 10000
        ([] ++ RunEvent.spawnError "boom" :: [RunEvent.exited (some 0)])).isSome = true
    ∧ (runTrace noClients
        ([] ++ RunEvent.exited (some 0) :: [RunEvent.exited (some 0)])).timerActive = false :=
  c7_first_event_wins noClients 10000 [] [RunEvent.exited (some 0)]
    (RunEvent.spawnError "boom") (some 0) (by simp) rfl

/-- C5: executeCode never throws: for every input and every completed
worker trace it resolves to a value, and every resolved failure
carries a human-readable error string (and every success an output
string).  Totality of the embedded function models the absence of
escaping exceptions. -/
theorem c5_failures_shaped (sb : SandboxFS) (code ts rand : String)
    (clients : MCPClients) (events : List RunEvent) :
    ((∃ e ∈ events, RunEvent.resolving e = true) →
      (executeCode sb code ts rand clients events).isSome = true)
    ∧ (∀ o, executeCode sb code ts rand clients events = some o →
        (o.result.success = true → o.result.output.isSome = true) ∧
        (o.result.success = false → o.result.error.isSome = true)) := by
  constructor
  · rintro ⟨e, he, hr⟩
    by_cases htd : sb.tempDirExists
    · obtain ⟨r, hres⟩ := Option.isSome_iff_exists.mp
        (runTrace_isSome_of_resolving clients events e he hr)
      simp [executeCode, htd, hres]
    · simp [executeCode, htd]
  · intro o ho
    by_cases htd : sb.tempDirExists
    · rcases hfin : (runTrace clients events).result with _ | r
      · simp [executeCode, htd, hfin] at ho
      · have hshape : goodShape r := by
          refine runFoldl_goodShape clients events initRunState ?_ r hfin
          intro x hx
          simp [initRunState] at hx
        simp [executeCode, htd, hfin] at ho
        have : o.result = r := by rw [← ho]
        rw [this]
        exact hshape
    · simp [executeCode, htd] at ho
      rw [← ho]
      constructor <;> simp

/-- Closed instance of the error-shape claim: a worker that exits with
code 1 and empty stderr resolves with a failure carrying an error
string. -/
theorem c5_failures_shaped_witness :
    (executeCode sandboxReady "throw 1" "2" "b" noClients
        [RunEvent.exited (some 1)]).isSome = true
    ∧ ((executeCode sandboxReady "throw 1" "2" "b" noClients
        [RunEvent.exited (some 1)]).map
          (fun o => o.result.error.isSome)) = some true := by
  have h := c5_failures_shaped sandboxReady "throw 1" "2" "b" noClients
    [RunEvent.exited (some 1)]
  have h1 := h.1 ⟨RunEvent.exited (some 1), by simp, rfl⟩
  refine ⟨h1, ?_⟩
  obtain ⟨o, ho⟩ := Option.isSome_iff_exists.mp h1
  have hsucc : (executeCode sandboxReady "throw 1" "2" "b" noClients
      [RunEvent.exited (some 1)]).map (fun x => x.result.success) = some false := by
    decide
  rw [ho] at hsucc
  simp at hsucc
  have h2 := (h.2 o ho).2 hsucc
  rw [ho]
  simp [h2]

/-- C6: after executeCode resolves, the per-call exec file is gone
while the temp directory, the stub-tree entry and the runner artifact
are untouched; only cleanup removes the workspace itself. -/
theorem c6_percall_file_cleanup (sb : SandboxFS) (code ts rand : String)
    (clients : MCPClients) (events : List RunEvent) (o : ExecOutcome)
    (h : executeCode sb code ts rand clients events = some o)
    (hfresh : execFileName ts rand ∉ sb.execFiles) :
    o.fs.execFiles = sb.execFiles
    ∧ execFileName ts rand ∉ o.fs.execFiles
    ∧ o.fs.tempDirExists = sb.tempDirExists
    ∧ o.fs.serversEntry = sb.serversEntry
    ∧ o.fs.runnerWritten = sb.runnerWritten
    ∧ (cleanup o.fs).tempDirExists = false
    ∧ (cleanup o.fs).execFiles = [] := by
  have hfiles : o.fs.execFiles = sb.execFiles ∧ o.fs.tempDirExists = sb.tempDirExists
      ∧ o.fs.serversEntry = sb.serversEntry ∧ o.fs.runnerWritten = sb.runnerWritten := by
    by_cases htd : sb.tempDirExists
    · rcases hfin : (runTrace clients events).result with _ | r
      · simp [executeCode, htd, hfin] at h
      · simp [executeCode, htd, hfin] at h
        rw [← h]
        refine ⟨?_, by simp [htd], rfl, rfl⟩
        rw [List.insert_of_not_mem hfresh, List.erase_cons_head]
    · simp [executeCode, htd] at h
      rw [← h]
      refine ⟨?_, by simp [htd], rfl, rfl⟩
      exact List.erase_of_not_mem hfresh
  refine ⟨hfiles.1, ?_, hfiles.2.1, hfiles.2.2.1, hfiles.2.2.2, rfl, rfl⟩
  rw [hfiles.1]
  exact hfresh

/-- Closed instance of the cleanup claim at a concrete call on an
initialized workspace. -/
theorem c6_percall_file_cleanup_witness :
    (ExecOutcome.mk (exitOutcome (some 0) "" "")
        sandboxReady true (some (runTrace noClients [RunEvent.exited (some 0)]))).fs.execFiles
        = sandboxReady.execFiles
    ∧ execFileName "3" "c" ∉ (ExecOutcome.mk (exitOutcome (some 0) "" "")
        sandboxReady true (some (runTrace noClients [RunEvent.exited (some 0)]))).fs.execFiles
    ∧ (cleanup sandboxReady).tempDirExists = false := by
  have h := c6_percall_file_cleanup sandboxReady "console.log(1)" "3" "c" noClients
    [RunEvent.exited (some 0)]
    (ExecOutcome.mk (exitOutcome (some 0) "" "")
      sandboxReady true (some (runTrace noClients [RunEvent.exited (some 0)])))
    (by decide) (by decide)
  exact ⟨h.1, h.2.1, h.2.2.2.2.2.1⟩

/-- C8: a null IPC message or one whose envelope lacks the
callMCPTool type tag is ignored: the runner state is left entirely
unchanged, no response is produced, and the outcome does not depend
on the connection map (the broker is never consulted).  Totality of
the embedded handler models that a malformed message never crashes
the runner. -/
theorem c8_malformed_messages_ignored (c c2 : MCPClients) (st : RunState)
    (ty : String) :
    stepEvent c st (RunEvent.ipcMessage IPCIncoming.null) = st
    ∧ stepEvent c st (RunEvent.ipcMessage (IPCIncoming.other ty)) = st
    ∧ handleMessage c IPCIncoming.null = none
    ∧ handleMessage c (IPCIncoming.other ty) = none
    ∧ handleMessage c (IPCIncoming.other ty) = handleMessage c2 (IPCIncoming.other ty) := by
  refine ⟨?_, ?_, rfl, rfl, rfl⟩ <;> simp [stepEvent, handleMessage]

/-- C9: workspace preparation is idempotent and ordered: an existing
usable stub tree (symbolic link or directory) short-circuits
re-creation; otherwise a symlink is attempted first; a
permission-class failure (EPERM, EACCES or ENOSYS) falls back to a
recursive copy; a missing canonical stub tree skips preparation
silently; and initialization completes in every case, creating the
temp directory and writing the runner artifact. -/
theorem c9_workspace_preparation (sb : SandboxFS) (tE : Bool)
    (ex : Option EntryKind) (lk : SymlinkResult) :
    (tE = false → prepareServers tE ex lk = PrepOutcome.skippedNoTarget)
    ∧ (tE = true → (ex = some EntryKind.symlink ∨ ex = some EntryKind.dir) →
        prepareServers tE ex lk = PrepOutcome.skippedExisting)
    ∧ (tE = true → ex = none → lk = SymlinkResult.ok →
        prepareServers tE ex lk = PrepOutcome.linked)
    ∧ (tE = true → ex = none →
        (lk = SymlinkResult.errEPERM ∨ lk = SymlinkResult.errEACCES ∨
         lk = SymlinkResult.errENOSYS) →
        prepareServers tE ex lk = PrepOutcome.copied)
    ∧ (sandboxInit sb tE ex lk).1.runnerWritten = true
    ∧ (sandboxInit sb tE ex lk).1.tempDirExists = true := by
  refine ⟨?_, ?_, ?_, ?_, rfl, rfl⟩
  · intro h
    subst h
    simp [prepareServers]
  · intro h hex
    subst h
    rcases hex with hex | hex <;> subst hex <;> simp [prepareServers]
  · intro h hex hlk
    subst h
    subst hex
    subst hlk
    simp [prepareServers]
  · intro h hex hlk
    subst h
    subst hex
    rcases hlk with hlk | hlk | hlk <;> subst hlk <;> simp [prepareServers]

/-- Closed instances of the preparation strategy: the silent skip, the
idempotent skip, the symlink path and the permission fallback, at
concrete inputs. -/
theorem c9_workspace_preparation_witness :
    prepareServers false none SymlinkResult.ok = PrepOutcome.skippedNoTarget
    ∧ prepareServers true (some EntryKind.dir) SymlinkResult.ok = PrepOutcome.skippedExisting
    ∧ prepareServers true none SymlinkResult.ok = PrepOutcome.linked
    ∧ prepareServers true none SymlinkResult.errEPERM = PrepOutcome.copied
    ∧ (sandboxInit sandboxReady false none SymlinkResult.ok).1.runnerWritten = true :=
  ⟨(c9_workspace_preparation sandboxReady false none SymlinkResult.ok).1 rfl,
   (c9_workspace_preparation sandboxReady true (some EntryKind.dir) SymlinkResult.ok).2.1
     rfl (Or.inr rfl),
   (c9_workspace_preparation sandboxReady true none SymlinkResult.ok).2.2.1 rfl rfl rfl,
   (c9_workspace_preparation sandboxReady true none SymlinkResult.errEPERM).2.2.2.1
     rfl rfl (Or.inl rfl),
   (c9_workspace_preparation sandboxReady false none SymlinkResult.ok).2.2.2.2.1⟩

/-- C10: calling executeCode on a sandbox whose initialize never ran
(no temp directory) does not throw and spawns no worker: the write of
the code file fails, the catch shapes the filesystem error message
into the result, and the finally unlink is a swallowed no-op. -/
theorem c10_execute_without_init (sb : SandboxFS) (code ts rand : String)
    (clients : MCPClients) (events : List RunEvent)
    (h : sb.tempDirExists = false) :
    executeCode sb code ts rand clients events =
      some { result := { success := false, output := none,
                         error := some (enoentOpenMsg
                           (sb.tempDir ++ "/" ++ execFileName ts rand)) },
             fs := { sb with execFiles := sb.execFiles.erase (execFileName ts rand) },
             spawned := false,
             run := none } := by
  simp [executeCode, h]

/-- Concrete sandbox state whose initialize never ran. -/
def sandboxUninitialized : SandboxFS :=
  { tempDir := ".sandbox-temp/42-1700000000001-ghijkl", tempDirExists := false,
    serversEntry := none, runnerWritten := false, execFiles := [] }

/-- Closed instance of the uninitialized-call claim: the call resolves
with the ENOENT failure, touches nothing and spawns nothing. -/
theorem c10_execute_without_init_witness :
    executeCode sandboxUninitialized "console.log(1)" "4" "d" noClients [] =
      some { result := { success := false, output := none,
                         error := some (enoentOpenMsg
                           (sandboxUninitialized.tempDir ++ "/" ++ execFileName "4" "d")) },
             fs := { sandboxUninitialized with
                       execFiles := sandboxUninitialized.execFiles.erase (execFileName "4" "d") },
             spawned := false,
             run := none } :=
  c10_execute_without_init sandboxUninitialized "console.log(1)" "4" "d" noClients [] rfl

/-- Every string contains itself. -/
theorem containsStr_self (s : String) : containsStr s s :=
  ⟨[], [], by simp⟩

/-- C3: a tool-call request naming a provider absent from the
connection map is answered immediately with an error response whose
message deterministically embeds the provider name; end to end the
user code awaiting that call fails, and the provider name is embedded
in the execution error. -/
theorem c3_not_connected (c : MCPClients) (id p tn : String) (args : ToolArgs)
    (h : c p = none) :
    handleMessage c (IPCIncoming.callMCPTool id p tn args) =
        some (IPCResponse.error id ("MCP server not connected: " ++ p))
    ∧ toolCallRoundTrip c id p tn args =
        some (Except.error ("MCP server not connected: " ++ p))
    ∧ (singleToolCallResult c id p tn args).success = false
    ∧ containsStr ((singleToolCallResult c id p tn args).error.getD "") p := by
  have h1 : handleMessage c (IPCIncoming.callMCPTool id p tn args) =
      some (IPCResponse.error id ("MCP server not connected: " ++ p)) := by
    simp [handleMessage, h]
  have h2 : toolCallRoundTrip c id p tn args =
      some (Except.error ("MCP server not connected: " ++ p)) := by
    simp [toolCallRoundTrip, h1, childHandleResponse]
  have hne : consoleErrorDisplay ("MCP server not connected: " ++ p) ≠ "" :=
    errorPrefix_ne_empty ("MCP server not connected: " ++ p) "\n"
  have h3 : singleToolCallResult c id p tn args =
      { success := false, output := none,
        error := some (consoleErrorDisplay ("MCP server not connected: " ++ p)) } := by
    simp [singleToolCallResult, h2, exitOutcome, jsStringOr, hne]
  refine ⟨h1, h2, by rw [h3], ?_⟩
  rw [h3]
  show containsStr (consoleErrorDisplay ("MCP server not connected: " ++ p)) p
  unfold consoleErrorDisplay
  exact containsStr_appendR "\n" (containsStr_appendL "Error: "
    (containsStr_appendL "MCP server not connected: " (containsStr_self p)))

/-- Closed instance of the unconnected-provider claim at the empty
connection map. -/
theorem c3_not_connected_witness :
    toolCallRoundTrip noClients "9" "fs" "readFile" "x" =
        some (Except.error ("MCP server not connected: " ++ "fs"))
    ∧ (singleToolCallResult noClients "9" "fs" "readFile" "x").success = false
    ∧ containsStr ((singleToolCallResult noClients "9" "fs" "readFile" "x").error.getD "") "fs" := by
  have h := c3_not_connected noClients "9" "fs" "readFile" "x" rfl
  exact ⟨h.2.1, h.2.2.1, h.2.2.2⟩

/-- C4: a tool call the broker resolves with a non-error text content
is observed by the awaiting user code as exactly that text; a call
resolved with the error flag set makes the await throw, and when that
throw is unhandled the execution fails with the provider content
embedded in the error. -/
theorem c4_round_trip_observation (c : MCPClients) (id sn tn : String)
    (args : ToolArgs) (cl : MCPClient) (hcl : c sn = some cl) :
    (∀ X, cl.callTool tn args = Except.ok (ToolData.mcp false [ContentItem.text X]) →
        toolCallRoundTrip c id sn tn args = some (Except.ok X))
    ∧ (∀ content, cl.callTool tn args = Except.ok (ToolData.mcp true content) →
        toolCallRoundTrip c id sn tn args =
          some (Except.error ("Tool call failed: " ++ stringifyContent content))
        ∧ (singleToolCallResult c id sn tn args).success = false
        ∧ ∀ m, ContentItem.text m ∈ content → escapeJson m = m →
            containsStr ((singleToolCallResult c id sn tn args).error.getD "") m) := by
  constructor
  · intro X hX
    simp [toolCallRoundTrip, handleMessage, hcl, hX, childHandleResponse,
      contentText, joinSep]
  · intro content hC
    have h2 : toolCallRoundTrip c id sn tn args =
        some (Except.error ("Tool call failed: " ++ stringifyContent content)) := by
      simp [toolCallRoundTrip, handleMessage, hcl, hC, childHandleResponse]
    have hne : consoleErrorDisplay ("Tool call failed: " ++ stringifyContent content) ≠ "" :=
      errorPrefix_ne_empty ("Tool call failed: " ++ stringifyContent content) "\n"
    have h3 : singleToolCallResult c id sn tn args =
        { success := false, output := none,
          error := some (consoleErrorDisplay
            ("Tool call failed: " ++ stringifyContent content)) } := by
      simp [singleToolCallResult, h2, exitOutcome, jsStringOr, hne]
    refine ⟨h2, by rw [h3], ?_⟩
    intro m hm hesc
    rw [h3]
    show containsStr (consoleErrorDisplay
      ("Tool call failed: " ++ stringifyContent content)) m
    unfold consoleErrorDisplay
    apply containsStr_appendR "\n"
    apply containsStr_appendL "Error: "
    apply containsStr_appendL "Tool call failed: "
    unfold stringifyContent
    apply containsStr_appendR "]"
    apply containsStr_appendL "["
    exact containsStr_trans
      (containsStr_joinSep "," _ _ (List.mem_map_of_mem stringifyItem hm))
      (containsStr_stringifyItem m hesc)

/-- Connection whose tool call resolves with a plain text payload. -/
def clientOkX : MCPClient :=
  { callTool := fun _ _ => Except.ok (ToolData.mcp false [ContentItem.text "X"]) }

/-- Map holding only the text-payload connection under the name fs. -/
def clientsOkX : MCPClients :=
  fun n => if n = "fs" then some clientOkX else none

/-- Connection whose tool call resolves with the error flag set. -/
def clientErrBoom : MCPClient :=
  { callTool := fun _ _ => Except.ok (ToolData.mcp true [ContentItem.text "boom"]) }

/-- Map holding only the error-flagged connection under the name fs. -/
def clientsErrBoom : MCPClients :=
  fun n => if n = "fs" then some clientErrBoom else none

/-- Closed instances of the round-trip claim: the text X is observed
verbatim, and an error-flagged response fails the execution with the
provider message boom embedded in the error. -/
theorem c4_round_trip_observation_witness :
    toolCallRoundTrip clientsOkX "7" "fs" "read" "a" = some (Except.ok "X")
    ∧ (singleToolCallResult clientsErrBoom "7" "fs" "read" "a").success = false
    ∧ containsStr ((singleToolCallResult clientsErrBoom "7" "fs" "read" "a").error.getD "") "boom" := by
  have h1 := (c4_round_trip_observation clientsOkX "7" "fs" "read" "a" clientOkX
    (by simp [clientsOkX])).1 "X" rfl
  have h2 := (c4_round_trip_observation clientsErrBoom "7" "fs" "read" "a" clientErrBoom
    (by simp [clientsErrBoom])).2 [ContentItem.text "boom"] rfl
  exact ⟨h1, h2.2.1, h2.2.2 "boom" (by simp) (by decide)⟩
